import Mathlib

/-!
Verification of the presence-tracking service in `app.py`.

The service stores presence in Redis:
  * `presence:{sid}`     — a plain string key holding the last-seen time,
  * `online:{path}`      — a sorted set per page path, members scored by last-seen time,
  * `metrics:pv:total`   — a monotone page-view counter.
`record_hit` validates an ingestion payload and issues one (non-transactional)
pipeline of Redis commands; `_collect_online_stats` scans the `online:*` sets,
prunes stale members and aggregates totals; `_sse_stream` pushes frames;
`healthz`/`readyz` are the probes.
-/

namespace OnlineApp

/-- The Redis keyspace used by `app.py`: `presence:{sid}` plain keys,
`online:{path}` sorted sets, and the `metrics:pv:total` counter.  The three
string formats are disjoint (distinct prefixes) and each injects its
parameter, so the keyspace is embedded as this inductive. -/
inductive RKey where
  | presence (sid : String)
  | online (path : String)
  | pvTotal
deriving DecidableEq, Repr

/-- JSON values, as far as `record_hit` inspects them: it only ever asks
whether a field is a string (`isinstance(x, str)`); every non-string shape
is treated alike. -/
inductive JVal where
  | str (s : String)
  | nonstr
deriving DecidableEq, Repr

/-- The fields of the `/v1/hit` JSON object that `record_hit` reads
(`sid`, `path`, `kind`); `none` means the field is absent. -/
structure Payload where
  sid : Option JVal
  path : Option JVal
  kind : Option JVal
deriving DecidableEq, Repr

/-- The Redis commands `app.py` issues. -/
inductive Cmd where
  | del (key : RKey)
  | zrem (key : RKey) (member : String)
  | setex (key : RKey) (ttl : Nat) (value : Int)
  | zadd (key : RKey) (member : String) (score : Int)
  | incr (key : RKey)
  | zremrangebyscore (key : RKey) (lo hi : Int)
  | expire (key : RKey) (seconds : Nat)
deriving DecidableEq, Repr

/-- A redis-py pipeline: the batched commands together with the
`transaction` flag it was created with (`MULTI/EXEC` wrapping iff true). -/
structure Pipeline where
  transaction : Bool
  cmds : List Cmd
deriving DecidableEq, Repr

/-- Redis store state: plain integer-valued keys, sorted sets
(association list of member/score, in insertion order), and per-key
absolute expiry times. -/
structure Store where
  kv : List (RKey × Int)
  zsets : List (RKey × List (String × Int))
  expiry : List (RKey × Int)
deriving DecidableEq, Repr

def emptyStore : Store := ⟨[], [], []⟩

/-- First-match association lookup. -/
def alookup {α : Type} : List (RKey × α) → RKey → Option α
  | [], _ => none
  | e :: es, k => if e.1 = k then some e.2 else alookup es k

/-- Set a key's value, overwriting in place or appending if absent. -/
def aset {α : Type} (l : List (RKey × α)) (k : RKey) (v : α) : List (RKey × α) :=
  if (alookup l k).isSome then
    l.map (fun e => if e.1 = k then (k, v) else e)
  else
    l ++ [(k, v)]

/-- Remove every binding of a key. -/
def aremove {α : Type} (l : List (RKey × α)) (k : RKey) : List (RKey × α) :=
  l.filter (fun e => !decide (e.1 = k))

/-- Apply a function to the member list of one sorted-set key. -/
def zmodify (zs : List (RKey × List (String × Int))) (k : RKey)
    (f : List (String × Int) → List (String × Int)) :
    List (RKey × List (String × Int)) :=
  zs.map (fun e => if e.1 = k then (e.1, f e.2) else e)

/-- `ZADD key {member: score}`: update the member's score, or append it. -/
def zaddMember (m : String) (s : Int) (ms : List (String × Int)) :
    List (String × Int) :=
  if ms.any (fun x => decide (x.1 = m)) then
    ms.map (fun x => if x.1 = m then (m, s) else x)
  else ms ++ [(m, s)]

/-- `ZREMRANGEBYSCORE` keeps exactly the members whose score lies outside
the inclusive range `[lo, hi]`. -/
def outsideRange (lo hi : Int) (ms : String × Int) : Bool :=
  !(decide (lo ≤ ms.2) && decide (ms.2 ≤ hi))

/-- One Redis command applied to the store; `now` is the server time at
which the command executes (used for relative expiries). -/
def applyCmd (now : Int) (st : Store) : Cmd → Store
  | .del k =>
      { st with kv := aremove st.kv k,
                zsets := st.zsets.filter (fun e => !decide (e.1 = k)),
                expiry := aremove st.expiry k }
  | .zrem k m =>
      { st with zsets :=
          zmodify st.zsets k (fun ms => ms.filter (fun x => !decide (x.1 = m))) }
  | .setex k ttl v =>
      { st with kv := aset st.kv k v, expiry := aset st.expiry k (now + ttl) }
  | .zadd k m s =>
      { st with zsets :=
          if (alookup st.zsets k).isSome then zmodify st.zsets k (zaddMember m s)
          else st.zsets ++ [(k, [(m, s)])] }
  | .incr k =>
      { st with kv := aset st.kv k ((alookup st.kv k).getD 0 + 1) }
  | .zremrangebyscore k lo hi =>
      { st with zsets := zmodify st.zsets k (List.filter (outsideRange lo hi)) }
  | .expire k secs =>
      { st with expiry := aset st.expiry k (now + secs) }

/-- Outcome of `record_hit`'s validation phase: either a 4xx rejection
(before any Redis call) or the pipeline of mutations it builds. -/
inductive HitResult where
  | reject (status : Nat) (error : String)
  | accept (pipe : Pipeline)
deriving DecidableEq, Repr

/-- Python's `str.strip()`: drop leading and trailing whitespace.
(Structurally recursive so that it reduces inside the kernel.) -/
def pyStrip (s : String) : String :=
  ⟨((s.data.dropWhile Char.isWhitespace).reverse.dropWhile Char.isWhitespace).reverse⟩

/-- `record_hit` (src/app.py lines 114–149), for a request whose body parsed
as a JSON object: validate `sid`, default `path`, validate `kind`, then build
the (non-transactional) pipeline of store mutations. -/
def record_hit (ttl : Nat) (payload : Payload) (now : Int) : HitResult :=
  match payload.sid with
  | some (JVal.str s) =>
    if pyStrip s = "" then .reject 400 "sid_required"
    else
      let sid := pyStrip s
      let path :=
        match payload.path.getD (JVal.str "/") with
        | JVal.str p => if p = "" then "/" else p
        | JVal.nonstr => "/"
      match payload.kind with
      | some (JVal.str k) =>
        if k = "load" ∨ k = "beat" ∨ k = "unload" then
          let presenceKey := RKey.presence sid
          let onlineKey := RKey.online path
          let base :=
            if k = "unload" then
              [Cmd.del presenceKey, Cmd.zrem onlineKey sid]
            else
              [Cmd.setex presenceKey ttl now, Cmd.zadd onlineKey sid now] ++
                (if k = "load" then [Cmd.incr RKey.pvTotal] else [])
          HitResult.accept ⟨false,
            base ++ [Cmd.zremrangebyscore onlineKey 0 (now - ttl),
                     Cmd.expire onlineKey 300]⟩
        else .reject 400 "invalid_kind"
      | _ => .reject 400 "invalid_kind"
  | _ => .reject 400 "sid_required"

/-- The HTTP response `record_hit` produces: status, the `ok` field, and the
`error` field of the JSON body. -/
structure HttpResp where
  status : Nat
  ok : Bool
  error : Option String
deriving DecidableEq, Repr

/-- End-to-end `record_hit` on the success path of `pipeline.execute()`:
a rejection leaves the store untouched; an accepted event applies its whole
pipeline. -/
def handleHit (ttl : Nat) (payload : Payload) (now : Int) (st : Store) :
    HttpResp × Store :=
  match record_hit ttl payload now with
  | .reject status err => (⟨status, false, some err⟩, st)
  | .accept pipe => (⟨200, true, none⟩, pipe.cmds.foldl (applyCmd now) st)

/-- Models redis-py pipeline execution with a possible mid-batch failure
after `k` commands: a transactional pipeline (`MULTI/EXEC`) applies all or
nothing, while a non-transactional one can leave a prefix of the batch
applied. -/
def execPipeline (now : Int) (st : Store) (p : Pipeline)
    (failAfter : Option Nat) : Store :=
  match failAfter with
  | none => p.cmds.foldl (applyCmd now) st
  | some k => if p.transaction then st else (p.cmds.take k).foldl (applyCmd now) st

/-- A key is visible at time `now` (Redis hides keys past their expiry). -/
def liveKey (st : Store) (now : Int) (k : RKey) : Bool :=
  match alookup st.expiry k with
  | some e => decide (now < e)
  | none => true

/-- `scan_iter(match="online:*")` with the path extracted
(`key.split("online:", 1)[1]`), in store order. -/
def scanOnline (st : Store) (now : Int) : List String :=
  (st.zsets.map Prod.fst).filterMap (fun k =>
    match k with
    | RKey.online p => if liveKey st now (RKey.online p) then some p else none
    | _ => none)

def zsetMembers (st : Store) (k : RKey) : List (String × Int) :=
  (alookup st.zsets k).getD []

def zcard (st : Store) (k : RKey) : Nat := (zsetMembers st k).length

/-- One iteration of the `_collect_online_stats` loop body: prune the path's
set by `ZREMRANGEBYSCORE key 0 cutoff`, read `ZCARD`, and accumulate the
total and the per-path list when the count is positive. -/
def collectStep (cutoff now : Int) (acc : Store × Nat × List (String × Nat))
    (p : String) : Store × Nat × List (String × Nat) :=
  let st' := applyCmd now acc.1 (Cmd.zremrangebyscore (RKey.online p) 0 cutoff)
  let c := zcard st' (RKey.online p)
  if 0 < c then (st', acc.2.1 + c, acc.2.2 ++ [(p, c)])
  else (st', acc.2.1, acc.2.2)

/-- The scan/prune/count loop of `_collect_online_stats`: the store after the
loop, the running total, and the per-path count list in scan order. -/
def collectRaw (ttl : Nat) (st : Store) (now : Int) :
    Store × Nat × List (String × Nat) :=
  (scanOnline st now).foldl (collectStep (now - ttl) now) (st, 0, [])

/-- Stable insertion (descending by count): `x` goes after every earlier
element with a strictly larger count and before the first one whose count is
not larger, so equal counts keep their original order, exactly as Python's
stable `list.sort(key=count, reverse=True)`. -/
def insertDesc (x : String × Nat) : List (String × Nat) → List (String × Nat)
  | [] => [x]
  | y :: ys => if y.2 > x.2 then y :: insertDesc x ys else x :: y :: ys

/-- Stable descending-by-count sort (`per_path.sort(key=item[1], reverse=True)`). -/
def sortCountDesc : List (String × Nat) → List (String × Nat)
  | [] => []
  | x :: xs => insertDesc x (sortCountDesc xs)

/-- The payload `_collect_online_stats` returns. -/
structure Stats where
  ts : Int
  online_total : Nat
  top_pages : List (String × Nat)
deriving DecidableEq, Repr

/-- `_collect_online_stats` (src/app.py lines 161–188): scan the `online:*`
sets, prune stale members, total the surviving counts, and keep the ten
largest per-path counts (stable descending sort, then `[:10]`).  Returns the
mutated store together with the stats payload. -/
def collectOnlineStats (ttl : Nat) (st : Store) (now : Int) : Store × Stats :=
  let r := collectRaw ttl st now
  (r.1, ⟨now, r.2.1, (sortCountDesc r.2.2).take 10⟩)

/-- The only store error `app.py` distinguishes (`redis.RedisError`). -/
inductive StoreErr where
  | redisError
deriving DecidableEq, Repr

/-- One SSE frame: the stats payload serialized as `data: {...}`, plus the
(possible) `error` field of the emitted JSON object — `_sse_stream` never
writes such a field, so it is `none` in every frame the code produces. -/
structure Frame where
  stats : Stats
  errorField : Option String
deriving DecidableEq, Repr

/-- The fallback payload `_sse_stream` builds when the store raises. -/
def zeroStats (now : Int) : Stats := ⟨now, 0, []⟩

/-- One iteration of the `while True` body of `_sse_stream`: if
`_collect_online_stats` raised a store error (`fail = true`), emit the zeroed
payload; otherwise emit the collected stats.  The returned flag is whether
the loop continues to the next iteration (the body has no `break`/`return`,
so it always does), and the store is returned as the iteration leaves it. -/
def sseTick (ttl : Nat) (st : Store) (now : Int) (fail : Bool) :
    Frame × Bool × Store :=
  if fail then (⟨zeroStats now, none⟩, true, st)
  else
    let r := collectOnlineStats ttl st now
    (⟨r.2, none⟩, true, r.1)

/-- `healthz`: unconditionally `{ok: true}` with status 200. -/
def healthz : Nat × Bool := (200, true)

/-- `readyz`: ping the store; 503 `{ok: false}` iff the ping raised. -/
def readyz (ping : Except StoreErr Unit) : Nat × Bool :=
  match ping with
  | .ok _ => (200, true)
  | .error _ => (503, false)

/-- Condition on the `sid` field under which `record_hit` answers
`sid_required`: absent, not a string, or whitespace-blank
(`not isinstance(sid, str) or not sid.strip()`). -/
def sidInvalid : Option JVal → Bool
  | some (JVal.str s) => decide (pyStrip s = "")
  | _ => true

/-- Extract the pipeline of an accepted hit; rejections are mapped to an
empty transactional pipeline, which no accepted hit ever produces. -/
def hitPipe : HitResult → Pipeline
  | .accept p => p
  | .reject _ _ => ⟨true, []⟩

/-- Store after a heartbeat for subject `"u1"` on scope `"/home"` at `t = 0`. -/
def u1Store : Store :=
  (handleHit 90 ⟨some (.str "u1"), some (.str "/home"), some (.str "beat")⟩ 0
    emptyStore).2

/-- Store holding a single record with `lastSeen = 0` on scope `"/"`. -/
def ttlEdgeStore : Store := ⟨[], [(RKey.online "/", [("u1", 0)])], []⟩

/-- Five fresh members (all last seen at time 100). -/
def tieMembers5 : List (String × Int) :=
  [("m1", 100), ("m2", 100), ("m3", 100), ("m4", 100), ("m5", 100)]

/-- Three fresh members. -/
def tieMembers3 : List (String × Int) := [("m1", 100), ("m2", 100), ("m3", 100)]

/-- Counts a:5, b:5, c:3 with the sets scanned in the order b, a, c. -/
def tieStoreBA : Store :=
  ⟨[], [(RKey.online "b", tieMembers5), (RKey.online "a", tieMembers5),
        (RKey.online "c", tieMembers3)], []⟩

/-- Counts a:5, b:5, c:3 with the sets scanned in the order a, b, c. -/
def tieStoreAB : Store :=
  ⟨[], [(RKey.online "a", tieMembers5), (RKey.online "b", tieMembers5),
        (RKey.online "c", tieMembers3)], []⟩

/-- One subject `"u1"` with live heartbeats under three distinct scopes. -/
def threeScopeStore : Store :=
  ⟨[], [(RKey.online "a", [("u1", 100)]), (RKey.online "b", [("u1", 100)]),
        (RKey.online "c", [("u1", 100)])], []⟩

/-- Eleven scopes with one live member each. -/
def elevenStore : Store :=
  ⟨[], ["a", "b", "c", "d", "e", "f", "g", "h", "i", "j", "k"].map
        (fun p => (RKey.online p, [("u", (100 : Int))])), []⟩

/-- A well-formed `beat` payload for subject `"u"` on scope `"/"`. -/
def beatPayload : Payload := ⟨some (.str "u"), some (.str "/"), some (.str "beat")⟩

/-! ### Basic lemmas about the store operations -/

theorem alookup_zmodify_self {zs : List (RKey × List (String × Int))} {k : RKey}
    {f : List (String × Int) → List (String × Int)} :
    alookup (zmodify zs k f) k = (alookup zs k).map f := by
  induction zs with
  | nil => rfl
  | cons e es ih =>
    by_cases h : e.1 = k
    · simp [zmodify, alookup, h]
    · simp [zmodify, alookup, h] at ih ⊢
      exact ih

theorem alookup_filter_of_imp {α : Type} {l : List (RKey × α)} {k : RKey}
    {p : RKey × α → Bool} (h : ∀ e : RKey × α, e.1 = k → p e = true) :
    alookup (l.filter p) k = alookup l k := by
  induction l with
  | nil => rfl
  | cons e es ih =>
    by_cases he : e.1 = k
    · simp [List.filter, h e he, alookup, he]
    · cases hp : p e <;> simp [List.filter, hp, alookup, he, ih]

theorem alookup_mem {α : Type} {l : List (RKey × α)} {k : RKey} {v : α}
    (h : alookup l k = some v) : (k, v) ∈ l := by
  induction l with
  | nil => simp [alookup] at h
  | cons e es ih =>
    rw [alookup] at h
    by_cases he : e.1 = k
    · rw [if_pos he] at h
      injection h with h
      subst he h
      exact List.mem_cons_self _ _
    · rw [if_neg he] at h
      exact List.mem_cons_of_mem _ (ih h)

theorem filter_self_idem {α : Type} (p : α → Bool) (l : List α) :
    (l.filter p).filter p = l.filter p := by
  induction l with
  | nil => rfl
  | cons a l ih => cases hp : p a <;> simp [List.filter, hp, ih]

theorem zsetMembers_zremrange (now : Int) (st : Store) (k : RKey) (lo hi : Int) :
    zsetMembers (applyCmd now st (Cmd.zremrangebyscore k lo hi)) k
      = (zsetMembers st k).filter (outsideRange lo hi) := by
  show (alookup (zmodify st.zsets k (List.filter (outsideRange lo hi))) k).getD []
      = ((alookup st.zsets k).getD []).filter (outsideRange lo hi)
  rw [alookup_zmodify_self]
  cases alookup st.zsets k <;> rfl

theorem zsetMembers_zrem (now : Int) (st : Store) (k : RKey) (m : String) :
    zsetMembers (applyCmd now st (Cmd.zrem k m)) k
      = (zsetMembers st k).filter (fun x => !decide (x.1 = m)) := by
  show (alookup (zmodify st.zsets k
        (fun ms => ms.filter (fun x => !decide (x.1 = m)))) k).getD []
      = ((alookup st.zsets k).getD []).filter (fun x => !decide (x.1 = m))
  rw [alookup_zmodify_self]
  cases alookup st.zsets k <;> rfl

/-! ### Claim theorems: probes, the SSE error path, validation -/

/-- C9: the liveness probe always returns 200 `{ok: true}`, and the readiness
probe returns 503 `{ok: false}` exactly on the store-ping error case and
200 `{ok: true}` on the success case. -/
theorem probes_health_readiness :
    healthz = (200, true) ∧ readyz (Except.ok ()) = (200, true) ∧
      ∀ e : StoreErr, readyz (Except.error e) = (503, false) :=
  ⟨rfl, rfl, fun _ => rfl⟩

/-- C2 counterexample: when `_collect_online_stats` raises a store error, the
iteration the code actually performs emits a frame with NO error indicator
(the payload has only `ts`/`online_total`/`top_pages`) and the loop
continues — it does not terminate the subscriber's stream. -/
theorem sse_error_frame_no_indicator_loop_continues :
    (sseTick 90 emptyStore 5 true).1.errorField = none ∧
      (sseTick 90 emptyStore 5 true).2.1 = true := by
  exact ⟨rfl, rfl⟩

/-- C2 (amended): on a backing-store error the broadcast loop delivers one
zeroed frame (`online_total = 0`, empty `top_pages`, current `ts`) carrying
no error field, leaves the store untouched, and keeps iterating. -/
theorem sse_store_error_zeroed_frame_continue :
    ∀ (ttl : Nat) (st : Store) (now : Int),
      sseTick ttl st now true = (⟨zeroStats now, none⟩, true, st) :=
  fun _ _ _ => rfl

/-- C4: any ingestion payload whose `sid` is absent, not a string, or blank
is answered with status 400 and error `sid_required`, and the store is left
completely unchanged. -/
theorem invalid_sid_rejected_no_mutation :
    ∀ (ttl : Nat) (payload : Payload) (now : Int) (st : Store),
      sidInvalid payload.sid = true →
      handleHit ttl payload now st = (⟨400, false, some "sid_required"⟩, st) := by
  intro ttl payload now st h
  obtain ⟨sv, pv, kv⟩ := payload
  match sv with
  | none => rfl
  | some JVal.nonstr => rfl
  | some (JVal.str s) =>
    have hs : pyStrip s = "" := of_decide_eq_true h
    simp [handleHit, record_hit, hs]

/-- Witness for C4 at the concrete payload `{"kind": "load"}` (no `sid`). -/
theorem invalid_sid_rejected_no_mutation_witness :
    sidInvalid (Payload.mk none none (some (JVal.str "load"))).sid = true ∧
      handleHit 90 ⟨none, none, some (JVal.str "load")⟩ 0 emptyStore
        = (⟨400, false, some "sid_required"⟩, emptyStore) :=
  ⟨by decide,
   invalid_sid_rejected_no_mutation 90 ⟨none, none, some (JVal.str "load")⟩ 0
     emptyStore (by decide)⟩

/-- C7: a heartbeat for `"u1"` on `"/home"` at `t = 0` with TTL 90 is counted
at `t = 89` (`online_total = 1`, `/home` listed) and gone at `t = 91`
(`online_total = 0`), whether or not the `t = 89` snapshot ran in between. -/
theorem heartbeat_ttl_window_scenario :
    (collectOnlineStats 90 u1Store 89).2.online_total = 1 ∧
    (collectOnlineStats 90 u1Store 89).2.top_pages = [("/home", 1)] ∧
    (collectOnlineStats 90 (collectOnlineStats 90 u1Store 89).1 91).2.online_total = 0 ∧
    (collectOnlineStats 90 (collectOnlineStats 90 u1Store 89).1 91).2.top_pages = [] ∧
    (collectOnlineStats 90 u1Store 91).2.online_total = 0 := by
  decide

/-- C1 counterexample: with TTL 90 at `now = 90`, a record with
`lastSeen = 0` has age exactly TTL, so by the claimed strict rule it is not
expired (`now - lastSeen > TTL` is false) and should survive and be counted;
the code prunes it and reports `online_total = 0`. -/
theorem exact_ttl_age_record_is_pruned :
    decide ((90 : Int) - 0 > (90 : Int)) = false ∧
    zsetMembers ttlEdgeStore (RKey.online "/") = [("u1", 0)] ∧
    (collectOnlineStats 90 ttlEdgeStore 90).2.online_total = 0 ∧
    (collectOnlineStats 90 ttlEdgeStore 90).2.top_pages = [] := by
  decide

/-- C1 (amended): the prune issued on every event and every read is
`ZREMRANGEBYSCORE key 0 (now - ttl)`, which removes exactly the members with
`0 ≤ lastSeen ≤ now - ttl` — an inclusive cutoff, so a record of age exactly
TTL is removed and excluded from the aggregate (as on `ttlEdgeStore`). -/
theorem prune_removes_inclusive_cutoff :
    (∀ (st : Store) (now : Int) (ttl : Nat) (k : RKey) (m : String) (s : Int),
      ((m, s) ∈ zsetMembers (applyCmd now st
          (Cmd.zremrangebyscore k 0 (now - ttl))) k
        ↔ (m, s) ∈ zsetMembers st k ∧ ¬(0 ≤ s ∧ s ≤ now - ttl))) ∧
    (collectOnlineStats 90 ttlEdgeStore 90).2.online_total = 0 := by
  refine ⟨fun st now ttl k m s => ?_, by decide⟩
  rw [zsetMembers_zremrange, List.mem_filter]
  constructor
  · rintro ⟨hm, hf⟩
    refine ⟨hm, ?_⟩
    simp [outsideRange] at hf
    omega
  · rintro ⟨hm, hn⟩
    refine ⟨hm, ?_⟩
    simp [outsideRange]
    omega

/-- C3 counterexample: `tieStoreBA` yields counts a:5, b:5, c:3, yet the code
orders `b` before `a` (Python's stable sort keeps scan order on ties; there
is no ascending-scope tie-break). -/
theorem topn_tie_not_broken_by_name :
    (collectOnlineStats 90 tieStoreBA 100).2.top_pages
        = [("b", 5), ("a", 5), ("c", 3)] ∧
    decide ((collectOnlineStats 90 tieStoreBA 100).2.top_pages
        = [("a", 5), ("b", 5), ("c", 3)]) = false := by
  decide

/-- C6 counterexample: the accepted beat pipeline is built with
`transaction=False`, and a failure after its first command leaves the store
half-updated: `presence:u` is written while `u` is absent from the scope's
ranked set (and the trim/TTL-refresh safeguard never ran). -/
theorem pipeline_not_transactional_half_update :
    (hitPipe (record_hit 90 beatPayload 100)).transaction = false ∧
    alookup (execPipeline 100 emptyStore (hitPipe (record_hit 90 beatPayload 100))
        (some 1)).kv (RKey.presence "u") = some 100 ∧
    zsetMembers (execPipeline 100 emptyStore (hitPipe (record_hit 90 beatPayload 100))
        (some 1)) (RKey.online "/") = [] := by
  decide

/-- C6 (amended): every accepted event is issued as one NON-transactional
pipelined batch (`transaction=False`, so a mid-batch failure can apply a
strict prefix), and the batch always ends with the expired-range trim and
the scope-key TTL refresh. -/
theorem record_hit_pipeline_shape :
    ∀ (ttl : Nat) (payload : Payload) (now : Int) (pipe : Pipeline),
      record_hit ttl payload now = HitResult.accept pipe →
      pipe.transaction = false ∧
      ∃ key pre, pipe.cmds
          = pre ++ [Cmd.zremrangebyscore key 0 (now - ttl), Cmd.expire key 300] := by
  intro ttl payload now pipe h
  obtain ⟨sv, pv, kv⟩ := payload
  simp only [record_hit] at h
  split at h
  · split at h
    · exact absurd h (by simp)
    · split at h
      · split at h
        · cases h
          exact ⟨rfl, _, _, rfl⟩
        · exact absurd h (by simp)
      · exact absurd h (by simp)
  · exact absurd h (by simp)

/-- Witness for C6 (amended) at the concrete beat payload. -/
theorem record_hit_pipeline_shape_witness :
    (hitPipe (record_hit 90 beatPayload 100)).transaction = false ∧
      ∃ key pre, (hitPipe (record_hit 90 beatPayload 100)).cmds
        = pre ++ [Cmd.zremrangebyscore key 0 ((100 : Int) - (90 : Nat)),
                  Cmd.expire key 300] :=
  record_hit_pipeline_shape 90 beatPayload 100
    (hitPipe (record_hit 90 beatPayload 100)) rfl

/-! ### The unload path (C5) -/

theorem record_hit_unload (ttl : Nat) (now : Int) (s p : String)
    (hs : pyStrip s ≠ "") (hp : p ≠ "") :
    record_hit ttl ⟨some (JVal.str s), some (JVal.str p), some (JVal.str "unload")⟩ now
      = HitResult.accept ⟨false,
          [Cmd.del (RKey.presence (pyStrip s)),
           Cmd.zrem (RKey.online p) (pyStrip s),
           Cmd.zremrangebyscore (RKey.online p) 0 (now - ttl),
           Cmd.expire (RKey.online p) 300]⟩ := by
  simp [record_hit, hs, hp]

/-- C5: an `unload` (leave) event for subject `s` on scope `p` answers 200,
removes the subject from that scope's sorted set immediately (no member of
the resulting set carries the subject's id, whatever the TTL), and leaves the
total-views counter untouched. -/
theorem unload_removes_immediately :
    ∀ (ttl : Nat) (st : Store) (now : Int) (s p : String),
      pyStrip s ≠ "" → p ≠ "" →
      (handleHit ttl ⟨some (JVal.str s), some (JVal.str p),
          some (JVal.str "unload")⟩ now st).1 = ⟨200, true, none⟩ ∧
      (∀ ms ∈ zsetMembers (handleHit ttl ⟨some (JVal.str s), some (JVal.str p),
          some (JVal.str "unload")⟩ now st).2 (RKey.online p),
        ms.1 ≠ pyStrip s) ∧
      alookup (handleHit ttl ⟨some (JVal.str s), some (JVal.str p),
          some (JVal.str "unload")⟩ now st).2.kv RKey.pvTotal
        = alookup st.kv RKey.pvTotal := by
  intro ttl st now s p hs hp
  unfold handleHit
  rw [record_hit_unload ttl now s p hs hp]
  refine ⟨rfl, ?_, ?_⟩
  · intro ms hms
    have hms' : ms ∈ zsetMembers
        (applyCmd now
          (applyCmd now (applyCmd now st (Cmd.del (RKey.presence (pyStrip s))))
            (Cmd.zrem (RKey.online p) (pyStrip s)))
          (Cmd.zremrangebyscore (RKey.online p) 0 (now - ttl))) (RKey.online p) := hms
    rw [zsetMembers_zremrange] at hms'
    have hms2 := (List.mem_filter.1 hms').1
    rw [zsetMembers_zrem] at hms2
    have := (List.mem_filter.1 hms2).2
    simpa using this
  · show alookup (aremove st.kv (RKey.presence (pyStrip s))) RKey.pvTotal
        = alookup st.kv RKey.pvTotal
    exact alookup_filter_of_imp (fun e he => by rw [he]; simp)

/-- Witness for C5: unloading `"u1"` from `"/home"` on the store produced by
its own earlier heartbeat. -/
theorem unload_removes_immediately_witness :
    (handleHit 90 ⟨some (JVal.str "u1"), some (JVal.str "/home"),
        some (JVal.str "unload")⟩ 5 u1Store).1 = ⟨200, true, none⟩ ∧
    alookup (handleHit 90 ⟨some (JVal.str "u1"), some (JVal.str "/home"),
        some (JVal.str "unload")⟩ 5 u1Store).2.kv RKey.pvTotal
      = alookup u1Store.kv RKey.pvTotal :=
  ⟨(unload_removes_immediately 90 u1Store 5 "u1" "/home" (by decide) (by decide)).1,
   (unload_removes_immediately 90 u1Store 5 "u1" "/home" (by decide) (by decide)).2.2⟩

/-! ### Sortedness of the top-N list (C3) -/

theorem mem_insertDesc {x z : String × Nat} {l : List (String × Nat)}
    (h : z ∈ insertDesc x l) : z = x ∨ z ∈ l := by
  induction l with
  | nil => simpa [insertDesc] using h
  | cons y ys ih =>
    rw [insertDesc] at h
    by_cases hc : y.2 > x.2
    · rw [if_pos hc] at h
      rcases List.mem_cons.1 h with h | h
      · exact Or.inr (by rw [h]; exact List.mem_cons_self _ _)
      · rcases ih h with h | h
        · exact Or.inl h
        · exact Or.inr (List.mem_cons_of_mem _ h)
    · rw [if_neg hc] at h
      rcases List.mem_cons.1 h with h | h
      · exact Or.inl h
      · exact Or.inr h

theorem pairwise_insertDesc {x : String × Nat} {l : List (String × Nat)}
    (h : l.Pairwise (fun a b => b.2 ≤ a.2)) :
    (insertDesc x l).Pairwise (fun a b => b.2 ≤ a.2) := by
  induction l with
  | nil => simp [insertDesc]
  | cons y ys ih =>
    rw [List.pairwise_cons] at h
    obtain ⟨hy, hys⟩ := h
    rw [insertDesc]
    by_cases hc : y.2 > x.2
    · rw [if_pos hc, List.pairwise_cons]
      refine ⟨fun z hz => ?_, ih hys⟩
      rcases mem_insertDesc hz with rfl | hz
      · exact Nat.le_of_lt hc
      · exact hy z hz
    · rw [if_neg hc, List.pairwise_cons]
      refine ⟨fun z hz => ?_, List.pairwise_cons.2 ⟨hy, hys⟩⟩
      rcases List.mem_cons.1 hz with rfl | hz
      · exact Nat.le_of_not_lt hc
      · exact Nat.le_trans (hy z hz) (Nat.le_of_not_lt hc)

theorem pairwise_sortCountDesc (l : List (String × Nat)) :
    (sortCountDesc l).Pairwise (fun a b => b.2 ≤ a.2) := by
  induction l with
  | nil => simp [sortCountDesc]
  | cons x xs ih =>
    rw [sortCountDesc]
    exact pairwise_insertDesc ih

/-- C3 (amended): `top_pages` is sorted descending by count, but ties are
kept in store scan order (Python's stable sort; there is no ascending-name
tie-break): the same counts a:5, b:5, c:3 come out `b` first or `a` first
depending solely on scan order. -/
theorem topn_sorted_desc_scan_order_ties :
    (∀ (ttl : Nat) (st : Store) (now : Int),
      ((collectOnlineStats ttl st now).2.top_pages).Pairwise
        (fun a b => b.2 ≤ a.2)) ∧
    (collectOnlineStats 90 tieStoreBA 100).2.top_pages
        = [("b", 5), ("a", 5), ("c", 3)] ∧
    (collectOnlineStats 90 tieStoreAB 100).2.top_pages
        = [("a", 5), ("b", 5), ("c", 3)] := by
  refine ⟨fun ttl st now => ?_, by decide, by decide⟩
  show ((sortCountDesc (collectRaw ttl st now).2.2).take 10).Pairwise _
  exact List.Pairwise.sublist (List.take_sublist 10 _) (pairwise_sortCountDesc _)

/-! ### The total is the sum over all scopes (C10) -/

theorem collectStep_total_eq (cutoff now : Int)
    (acc : Store × Nat × List (String × Nat)) (p : String) :
    (collectStep cutoff now acc p).2.1 + (acc.2.2.map Prod.snd).sum
      = acc.2.1 + ((collectStep cutoff now acc p).2.2.map Prod.snd).sum := by
  dsimp only [collectStep]
  split
  · simp [List.sum_append]
    omega
  · rfl

theorem collectFold_total_eq (cutoff now : Int) :
    ∀ (keys : List String) (acc : Store × Nat × List (String × Nat)),
      (keys.foldl (collectStep cutoff now) acc).2.1 + (acc.2.2.map Prod.snd).sum
        = acc.2.1 + ((keys.foldl (collectStep cutoff now) acc).2.2.map Prod.snd).sum := by
  intro keys
  induction keys with
  | nil => intro acc; rfl
  | cons p rest ih =>
    intro acc
    rw [List.foldl_cons]
    have h1 := ih (collectStep cutoff now acc p)
    have h2 := collectStep_total_eq cutoff now acc p
    omega

/-- C10: the reported `online_total` is the sum of the surviving per-scope
counts over ALL scanned scopes (the full per-path list, not the truncated
`top_pages`); a single subject present under k distinct scopes therefore
contributes k (`threeScopeStore`: 3), and with eleven scopes the total (11)
exceeds the sum over the ten-entry `top_pages` (10). -/
theorem online_total_sums_all_scopes :
    (∀ (ttl : Nat) (st : Store) (now : Int),
      (collectOnlineStats ttl st now).2.online_total
        = ((collectRaw ttl st now).2.2.map Prod.snd).sum) ∧
    (collectOnlineStats 90 threeScopeStore 100).2.online_total = 3 ∧
    (collectOnlineStats 90 elevenStore 100).2.online_total = 11 ∧
    ((collectOnlineStats 90 elevenStore 100).2.top_pages.map Prod.snd).sum = 10 := by
  refine ⟨fun ttl st now => ?_, by decide, by decide, by decide⟩
  show ((scanOnline st now).foldl (collectStep (now - ttl) now) (st, 0, [])).2.1
      = (((scanOnline st now).foldl (collectStep (now - ttl) now)
          (st, 0, [])).2.2.map Prod.snd).sum
  have := collectFold_total_eq (now - ttl) now (scanOnline st now) (st, 0, [])
  simpa using this

/-! ### Idempotence of aggregation (C8) -/

theorem collectStep_fst (cutoff now : Int)
    (acc : Store × Nat × List (String × Nat)) (p : String) :
    (collectStep cutoff now acc p).1
      = applyCmd now acc.1 (Cmd.zremrangebyscore (RKey.online p) 0 cutoff) := by
  dsimp only [collectStep]
  split <;> rfl

theorem zmodify_map_fst (zs : List (RKey × List (String × Int))) (k : RKey)
    (f : List (String × Int) → List (String × Int)) :
    (zmodify zs k f).map Prod.fst = zs.map Prod.fst := by
  unfold zmodify
  rw [List.map_map]
  apply List.map_congr_left
  intro e _
  show (if e.1 = k then (e.1, f e.2) else e).1 = e.1
  split <;> rfl

theorem scanOnline_prune (now now' lo hi : Int) (st : Store) (k : RKey) :
    scanOnline (applyCmd now st (Cmd.zremrangebyscore k lo hi)) now'
      = scanOnline st now' := by
  unfold scanOnline
  rw [show (applyCmd now st (Cmd.zremrangebyscore k lo hi)).zsets
        = zmodify st.zsets k (List.filter (outsideRange lo hi)) from rfl,
      zmodify_map_fst]
  have hlive : ∀ (n : Int) (kk : RKey),
      liveKey (applyCmd now st (Cmd.zremrangebyscore k lo hi)) n kk
        = liveKey st n kk := fun _ _ => rfl
  simp only [hlive]

theorem collectFold_scan (cutoff now now' : Int) :
    ∀ (keys : List String) (acc : Store × Nat × List (String × Nat)),
      scanOnline ((keys.foldl (collectStep cutoff now) acc).1) now'
        = scanOnline acc.1 now' := by
  intro keys
  induction keys with
  | nil => intro acc; rfl
  | cons p rest ih =>
    intro acc
    rw [List.foldl_cons, ih, collectStep_fst]
    exact scanOnline_prune now now' 0 cutoff acc.1 (RKey.online p)

theorem alookup_zmodify_ne {zs : List (RKey × List (String × Int))}
    {k k' : RKey} {f : List (String × Int) → List (String × Int)}
    (h : k' ≠ k) :
    alookup (zmodify zs k' f) k = alookup zs k := by
  induction zs with
  | nil => rfl
  | cons e es ih =>
    show alookup ((if e.1 = k' then (e.1, f e.2) else e) :: zmodify es k' f) k
        = alookup (e :: es) k
    by_cases he' : e.1 = k'
    · rw [if_pos he', alookup, alookup]
      dsimp only
      have hek : e.1 ≠ k := fun hh => h (he' ▸ hh)
      rw [if_neg hek, if_neg hek]
      exact ih
    · rw [if_neg he', alookup, alookup]
      by_cases hek : e.1 = k
      · rw [if_pos hek, if_pos hek]
      · rw [if_neg hek, if_neg hek]
        exact ih

theorem prune_establishes (now cutoff : Int) (st : Store) (k : RKey) :
    ∀ e ∈ (applyCmd now st (Cmd.zremrangebyscore k 0 cutoff)).zsets,
      e.1 = k → e.2.filter (outsideRange 0 cutoff) = e.2 := by
  intro e he hek
  have he' : e ∈ zmodify st.zsets k (List.filter (outsideRange 0 cutoff)) := he
  unfold zmodify at he'
  rcases List.mem_map.1 he' with ⟨e0, _, rfl⟩
  by_cases h0 : e0.1 = k
  · rw [if_pos h0]
    exact filter_self_idem _ _
  · rw [if_neg h0] at hek
    exact absurd hek h0

theorem prune_preserves_inv (now cutoff : Int) (st : Store) (k k' : RKey)
    (h : ∀ e ∈ st.zsets, e.1 = k → e.2.filter (outsideRange 0 cutoff) = e.2) :
    ∀ e ∈ (applyCmd now st (Cmd.zremrangebyscore k' 0 cutoff)).zsets,
      e.1 = k → e.2.filter (outsideRange 0 cutoff) = e.2 := by
  intro e he hek
  have he' : e ∈ zmodify st.zsets k' (List.filter (outsideRange 0 cutoff)) := he
  unfold zmodify at he'
  rcases List.mem_map.1 he' with ⟨e0, he0, rfl⟩
  by_cases h0 : e0.1 = k'
  · rw [if_pos h0]
    exact filter_self_idem _ _
  · rw [if_neg h0] at hek ⊢
    exact h e0 he0 hek

theorem prune_lookup_eq (now cutoff : Int) (st : Store) (k k' : RKey)
    (h : ∀ e ∈ st.zsets, e.1 = k → e.2.filter (outsideRange 0 cutoff) = e.2) :
    alookup (applyCmd now st (Cmd.zremrangebyscore k' 0 cutoff)).zsets k
      = alookup st.zsets k := by
  by_cases hkk : k' = k
  · subst hkk
    have hself : alookup (applyCmd now st (Cmd.zremrangebyscore k' 0 cutoff)).zsets k'
        = (alookup st.zsets k').map (List.filter (outsideRange 0 cutoff)) :=
      alookup_zmodify_self
    rw [hself]
    cases hv : alookup st.zsets k' with
    | none => rfl
    | some v =>
      show some (v.filter (outsideRange 0 cutoff)) = some v
      rw [h (k', v) (alookup_mem hv) rfl]
  · exact alookup_zmodify_ne hkk

theorem prune_fixpoint (now cutoff : Int) (st : Store) (k : RKey)
    (h : ∀ e ∈ st.zsets, e.1 = k → e.2.filter (outsideRange 0 cutoff) = e.2) :
    applyCmd now st (Cmd.zremrangebyscore k 0 cutoff) = st := by
  show { st with zsets := zmodify st.zsets k (List.filter (outsideRange 0 cutoff)) } = st
  have hcong : ∀ e ∈ st.zsets,
      (fun e : RKey × List (String × Int) =>
        if e.1 = k then (e.1, e.2.filter (outsideRange 0 cutoff)) else e) e = id e := by
    intro e he
    show (if e.1 = k then (e.1, e.2.filter (outsideRange 0 cutoff)) else e) = e
    by_cases h0 : e.1 = k
    · rw [if_pos h0, h e he h0]
    · rw [if_neg h0]
  have hz : zmodify st.zsets k (List.filter (outsideRange 0 cutoff)) = st.zsets := by
    unfold zmodify
    rw [List.map_congr_left hcong, List.map_id]
  rw [hz]

theorem collectFold_inv (cutoff now : Int) (k : RKey) :
    ∀ (keys : List String) (acc : Store × Nat × List (String × Nat)),
      (∀ e ∈ acc.1.zsets, e.1 = k → e.2.filter (outsideRange 0 cutoff) = e.2) →
      ∀ e ∈ ((keys.foldl (collectStep cutoff now) acc).1).zsets,
        e.1 = k → e.2.filter (outsideRange 0 cutoff) = e.2 := by
  intro keys
  induction keys with
  | nil => intro acc h; exact h
  | cons p rest ih =>
    intro acc h
    rw [List.foldl_cons]
    apply ih
    intro e he hek
    rw [collectStep_fst] at he
    exact prune_preserves_inv now cutoff acc.1 k (RKey.online p) h e he hek

theorem collectFold_lookup (cutoff now : Int) (k : RKey) :
    ∀ (keys : List String) (acc : Store × Nat × List (String × Nat)),
      (∀ e ∈ acc.1.zsets, e.1 = k → e.2.filter (outsideRange 0 cutoff) = e.2) →
      alookup ((keys.foldl (collectStep cutoff now) acc).1).zsets k
        = alookup acc.1.zsets k := by
  intro keys
  induction keys with
  | nil => intro acc _; rfl
  | cons p rest ih =>
    intro acc h
    have hstep : ∀ e ∈ ((collectStep cutoff now acc p).1).zsets,
        e.1 = k → e.2.filter (outsideRange 0 cutoff) = e.2 := by
      intro e he hek
      rw [collectStep_fst] at he
      exact prune_preserves_inv now cutoff acc.1 k (RKey.online p) h e he hek
    rw [List.foldl_cons, ih (collectStep cutoff now acc p) hstep, collectStep_fst]
    exact prune_lookup_eq now cutoff acc.1 k (RKey.online p) h

theorem collectFold_idem (cutoff now : Int) :
    ∀ (keys : List String) (st : Store) (t : Nat) (per : List (String × Nat)),
      keys.foldl (collectStep cutoff now)
          (((keys.foldl (collectStep cutoff now) (st, t, per)).1), t, per)
        = keys.foldl (collectStep cutoff now) (st, t, per) := by
  intro keys
  induction keys with
  | nil => intro st t per; rfl
  | cons p rest ih =>
    intro st t per
    rw [List.foldl_cons, List.foldl_cons]
    set s1 : Store := applyCmd now st (Cmd.zremrangebyscore (RKey.online p) 0 cutoff)
      with hs1
    by_cases hc : 0 < zcard s1 (RKey.online p)
    · have hacc : collectStep cutoff now (st, t, per) p
          = (s1, t + zcard s1 (RKey.online p),
             per ++ [(p, zcard s1 (RKey.online p))]) := by
        dsimp only [collectStep]
        rw [← hs1, if_pos hc]
      rw [hacc]
      have hinv1 : ∀ e ∈ s1.zsets,
          e.1 = RKey.online p → e.2.filter (outsideRange 0 cutoff) = e.2 := by
        rw [hs1]
        exact prune_establishes now cutoff st (RKey.online p)
      have hinvR := collectFold_inv cutoff now (RKey.online p) rest
        (s1, t + zcard s1 (RKey.online p), per ++ [(p, zcard s1 (RKey.online p))]) hinv1
      have hlook := collectFold_lookup cutoff now (RKey.online p) rest
        (s1, t + zcard s1 (RKey.online p), per ++ [(p, zcard s1 (RKey.online p))]) hinv1
      have hfix := prune_fixpoint now cutoff _ (RKey.online p) hinvR
      have hcard : zcard ((rest.foldl (collectStep cutoff now)
            (s1, t + zcard s1 (RKey.online p),
             per ++ [(p, zcard s1 (RKey.online p))])).1) (RKey.online p)
          = zcard s1 (RKey.online p) := by
        show ((alookup ((rest.foldl (collectStep cutoff now)
              (s1, t + zcard s1 (RKey.online p),
               per ++ [(p, zcard s1 (RKey.online p))])).1).zsets
            (RKey.online p)).getD []).length
          = ((alookup s1.zsets (RKey.online p)).getD []).length
        rw [hlook]
      have hstep2 : collectStep cutoff now
            (((rest.foldl (collectStep cutoff now)
              (s1, t + zcard s1 (RKey.online p),
               per ++ [(p, zcard s1 (RKey.online p))])).1), t, per) p
          = (((rest.foldl (collectStep cutoff now)
              (s1, t + zcard s1 (RKey.online p),
               per ++ [(p, zcard s1 (RKey.online p))])).1),
             t + zcard s1 (RKey.online p),
             per ++ [(p, zcard s1 (RKey.online p))]) := by
        dsimp only [collectStep]
        rw [hfix, hcard, if_pos hc]
      rw [hstep2]
      exact ih s1 (t + zcard s1 (RKey.online p)) (per ++ [(p, zcard s1 (RKey.online p))])
    · have hacc : collectStep cutoff now (st, t, per) p = (s1, t, per) := by
        dsimp only [collectStep]
        rw [← hs1, if_neg hc]
      rw [hacc]
      have hinv1 : ∀ e ∈ s1.zsets,
          e.1 = RKey.online p → e.2.filter (outsideRange 0 cutoff) = e.2 := by
        rw [hs1]
        exact prune_establishes now cutoff st (RKey.online p)
      have hinvR := collectFold_inv cutoff now (RKey.online p) rest (s1, t, per) hinv1
      have hlook := collectFold_lookup cutoff now (RKey.online p) rest (s1, t, per) hinv1
      have hfix := prune_fixpoint now cutoff _ (RKey.online p) hinvR
      have hcard : zcard ((rest.foldl (collectStep cutoff now) (s1, t, per)).1)
            (RKey.online p)
          = zcard s1 (RKey.online p) := by
        show ((alookup ((rest.foldl (collectStep cutoff now) (s1, t, per)).1).zsets
            (RKey.online p)).getD []).length
          = ((alookup s1.zsets (RKey.online p)).getD []).length
        rw [hlook]
      have hstep2 : collectStep cutoff now
            (((rest.foldl (collectStep cutoff now) (s1, t, per)).1), t, per) p
          = (((rest.foldl (collectStep cutoff now) (s1, t, per)).1), t, per) := by
        dsimp only [collectStep]
        rw [hfix, hcard, if_neg hc]
      rw [hstep2]
      exact ih s1 t per

/-- C8: aggregation is deterministic and idempotent — it is a pure function
of the store and `now`, and re-running `_collect_online_stats` straight after
a run (same `now`, store as the first run left it) returns the identical
store and the byte-identical payload (same `ts`, `online_total`,
`top_pages`). -/
theorem collect_idempotent :
    ∀ (ttl : Nat) (st : Store) (now : Int),
      collectOnlineStats ttl (collectOnlineStats ttl st now).1 now
        = collectOnlineStats ttl st now := by
  intro ttl st now
  have hscan : scanOnline (((scanOnline st now).foldl
        (collectStep (now - ttl) now) (st, 0, [])).1) now
      = scanOnline st now :=
    collectFold_scan (now - ttl) now now (scanOnline st now) (st, 0, [])
  simp only [collectOnlineStats, collectRaw]
  rw [hscan, collectFold_idem (now - ttl) now (scanOnline st now) st 0 []]

end OnlineApp
